import Mathlib

/-!
Shallow embedding of the imgConvert conversion orchestrator
(`Converter` component together with the `App`-level file list), used to
check the specification's claims about per-record state transitions,
engine-side virtual-file cleanup, serialization of conversions, download
naming, and batch clearing.

Modelling conventions:
* The FFmpeg engine handle is modelled by its virtual filesystem, a list
  of virtual file names (`List String`), plus a per-attempt `EngineOutcome`
  oracle deciding which engine operations succeed.  `writeFile` inserts the
  name on success; `exec` inserts the output name on success; `readFile`
  succeeds when the name is present and the oracle allows it; `deleteFile`
  removes the name when present and the oracle allows it, and fails
  otherwise (a failed delete leaves the filesystem unchanged).
* Object URLs produced by `URL.createObjectURL` are modelled as
  consecutively allocated natural numbers drawn from a counter.
* Every engine operation attempted by `convertFile` is recorded in a
  trace (`List EngineOp`), in program order.
-/

/-- Target formats of the format selector: `'png' | 'jpeg' | 'webp'`. -/
inductive TargetFormat
  | png
  | jpeg
  | webp
deriving DecidableEq, Repr

/-- The string value of a `TargetFormat`, as interpolated by the code into
the output name `output_i.fmt`, the blob type `image/fmt` and the
download name. -/
def TargetFormat.str : TargetFormat → String
  | .png => "png"
  | .jpeg => "jpeg"
  | .webp => "webp"

/-- `type FileStatus = 'idle' | 'converting' | 'done' | 'error'`. -/
inductive FileStatus
  | idle
  | converting
  | done
  | error
deriving DecidableEq, Repr

/-- An input `File`: an opaque blob with a display name and a size. -/
structure InputFile where
  name : String
  size : Nat
deriving DecidableEq, Repr

/-- `interface FileState { file; status; outputUrl?; error? }`. -/
structure FileState where
  file : InputFile
  status : FileStatus
  outputUrl : Option Nat := none
  error : Option String := none
deriving DecidableEq, Repr

/-- One engine operation issued through the FFmpeg handle. -/
inductive EngineOp
  | write (name : String)
  | exec (cmd : List String)
  | read (name : String)
  | delete (name : String)
deriving DecidableEq, Repr

/-- Per-attempt oracle deciding the success of each fallible engine
operation awaited by `convertFile`, in program order: the input write,
the exec, the output read, the output delete, and the input delete
performed in the `finally` block. -/
structure EngineOutcome where
  writeOk : Bool
  execOk : Bool
  readOk : Bool
  deleteOutOk : Bool
  deleteInOk : Bool
deriving DecidableEq, Repr

/-- The fully successful outcome. -/
def EngineOutcome.allOk : EngineOutcome :=
  ⟨true, true, true, true, true⟩

/-- `fileState.file.name.replace(/\s/g, '_')`: whitespace replaced by
underscores to satisfy the engine's naming constraints.  Stated on the
character list so that it evaluates by kernel reduction. -/
def sanitizeName (s : String) : String :=
  ⟨s.data.map fun c => if c.isWhitespace then '_' else c⟩

/-- The virtual input name `input_${index}_${sanitized}`. -/
def inputNameOf (index : Nat) (f : InputFile) : String :=
  "input_" ++ toString index ++ "_" ++ sanitizeName f.name

/-- The virtual output name `output_${index}.${targetFormat}`. -/
def outputNameOf (index : Nat) (fmt : TargetFormat) : String :=
  "output_" ++ toString index ++ "." ++ fmt.str

/-- A delete attempt against the virtual filesystem: succeeds when the
name is present and the oracle allows it, returning `true` and the
filesystem without that name; otherwise fails (throws in the code),
returning `false` and the filesystem unchanged. -/
def deleteAttempt (ok : Bool) (name : String) (vfs : List String) :
    Bool × List String :=
  if name ∈ vfs ∧ ok = true then (true, vfs.erase name) else (false, vfs)

/-- The catch handler's record update:
`{...state, status: 'error', error: 'Conversion failed'}`. -/
def markFailed (s : FileState) : FileState :=
  { s with status := .error, error := some "Conversion failed" }

/-- Result of one `convertFile` attempt: the record's final state, the
engine's virtual filesystem, the object-URL counter, and the trace of
engine operations attempted. -/
structure ConvResult where
  state : FileState
  vfs : List String
  urlCtr : Nat
  trace : List EngineOp
deriving Repr

/-- The `try` body of `convertFile` up to but excluding the `finally`
block, with the catch handler applied on the failing paths.  Follows the
source control flow: mark `converting` (clearing `error` but not
`outputUrl`), write the input, exec
`['-i', inputName, outputName]`, read the output, allocate the object
URL and mark `done`, then delete the output file; any failure jumps to
the catch handler, which overwrites the status with `error` and the
diagnostic `"Conversion failed"`. -/
def convertFileBody (fmt : TargetFormat) (o : EngineOutcome)
    (fileState : FileState) (index : Nat) (vfs : List String)
    (ctr : Nat) : ConvResult :=
  let inputName := inputNameOf index fileState.file
  let outputName := outputNameOf index fmt
  let s1 : FileState := { fileState with status := .converting, error := none }
  let t0 : List EngineOp := [.write inputName]
  if o.writeOk = false then
    ⟨markFailed s1, vfs, ctr, t0⟩
  else
    let vfs1 := vfs.insert inputName
    let t1 := t0 ++ [.exec ["-i", inputName, outputName]]
    if o.execOk = false then
      ⟨markFailed s1, vfs1, ctr, t1⟩
    else
      let vfs2 := vfs1.insert outputName
      let t2 := t1 ++ [.read outputName]
      if ¬ (outputName ∈ vfs2 ∧ o.readOk = true) then
        ⟨markFailed s1, vfs2, ctr, t2⟩
      else
        let s2 : FileState := { s1 with status := .done, outputUrl := some ctr }
        let t3 := t2 ++ [.delete outputName]
        let d := deleteAttempt o.deleteOutOk outputName vfs2
        if d.1 then
          ⟨s2, d.2, ctr + 1, t3⟩
        else
          ⟨markFailed s2, d.2, ctr + 1, t3⟩

/-- `convertFile`: the try/catch body followed by the `finally` block,
which always attempts to delete the virtual input file and swallows any
failure of that deletion. -/
def convertFile (fmt : TargetFormat) (o : EngineOutcome)
    (fileState : FileState) (index : Nat) (vfs : List String)
    (ctr : Nat) : ConvResult :=
  let r := convertFileBody fmt o fileState index vfs ctr
  let inputName := inputNameOf index fileState.file
  let d := deleteAttempt o.deleteInOk inputName r.vfs
  ⟨r.state, d.2, r.urlCtr, r.trace ++ [.delete inputName]⟩

example :
    (convertFile .png .allOk ⟨⟨"a.jpg", 10⟩, .idle, none, none⟩ 0 [] 0).state
      = ⟨⟨"a.jpg", 10⟩, .done, some 0, none⟩ := by decide

example :
    (convertFile .png .allOk ⟨⟨"a.jpg", 10⟩, .idle, none, none⟩ 0 [] 0).vfs = [] :=
  rfl

/-- State of the `Converter` component together with the engine's
virtual filesystem and the object-URL allocator. -/
structure BatchState where
  fileStates : List FileState
  targetFormat : TargetFormat
  isConverting : Bool
  vfs : List String
  urlCtr : Nat
deriving Repr

/-- Result of one batch pass: the record list, the engine filesystem,
the URL counter and the concatenated engine-operation trace. -/
structure BatchResult where
  states : List FileState
  vfs : List String
  urlCtr : Nat
  trace : List EngineOp
deriving Repr

/-- The loop body of `handleConvertAll`:
`for i: if fileStates[i].status !== 'done' then await convertFile(fileStates[i], i)`.
Each iteration only touches its own record, so the loop is phrased
structurally on the record list with a running index; the engine
filesystem, the URL counter and the operation trace are threaded through
the sequential `await`s.  `oracles i` is the engine outcome of record
`i`'s attempt. -/
def convertAllLoop (fmt : TargetFormat) (oracles : Nat → EngineOutcome) :
    Nat → List FileState → List String → Nat → BatchResult
  | _, [], vfs, ctr => ⟨[], vfs, ctr, []⟩
  | i, f :: rest, vfs, ctr =>
    if f.status = .done then
      let k := convertAllLoop fmt oracles (i + 1) rest vfs ctr
      ⟨f :: k.states, k.vfs, k.urlCtr, k.trace⟩
    else
      let r := convertFile fmt (oracles i) f i vfs ctr
      let k := convertAllLoop fmt oracles (i + 1) rest r.vfs r.urlCtr
      ⟨r.state :: k.states, k.vfs, k.urlCtr, r.trace ++ k.trace⟩

/-- `handleConvertAll`: sets `isConverting` to true, runs the loop over
all records awaiting each conversion in order, then sets `isConverting`
back to false.  Returns the resulting batch state and the full trace of
engine operations of this invocation. -/
def handleConvertAll (oracles : Nat → EngineOutcome) (b : BatchState) :
    BatchState × List EngineOp :=
  let k := convertAllLoop b.targetFormat oracles 0 b.fileStates b.vfs b.urlCtr
  ({ b with
      fileStates := k.states, vfs := k.vfs, urlCtr := k.urlCtr,
      isConverting := false }, k.trace)

/-- `s.file.name.split('.')[0]`: the segment of the display name before
the first dot (the whole name when it has no dot).  Stated on the
character list so that it evaluates by kernel reduction. -/
def firstDotSegment (s : String) : String :=
  ⟨s.data.takeWhile fun c => c ≠ '.'⟩

/-- The download filename used by `downloadAll`:
`${s.file.name.split('.')[0]}.${targetFormat}`, built from the target
format current at download time. -/
def downloadName (s : FileState) (fmt : TargetFormat) : String :=
  firstDotSegment s.file.name ++ "." ++ fmt.str

/-- The `download` attribute of a record row's download link, which the
component computes with the same expression as `downloadAll`. -/
def recordLinkName (s : FileState) (fmt : TargetFormat) : String :=
  firstDotSegment s.file.name ++ "." ++ fmt.str

/-- `downloadAll`: for each record with an output URL and status `done`,
in batch order, trigger one delivery of its output URL under the
computed download name.  Returns the delivered (filename, URL) pairs;
no state is mutated. -/
def downloadAll (states : List FileState) (fmt : TargetFormat) :
    List (String × Nat) :=
  states.filterMap fun s =>
    match s.outputUrl, decide (s.status = .done) with
    | some url, true => some (downloadName s fmt, url)
    | _, _ => none

/-- App-level state: the selected file list, the mounted `Converter`'s
records (the `Converter` is mounted exactly while `files` is nonempty,
and its state is discarded on unmount), and the set of object URLs
currently allocated in the browser session. -/
structure AppState where
  files : List InputFile
  batch : List FileState
  allocatedUrls : List Nat
deriving Repr

/-- `clearFiles`: `setFiles([])`.  Emptying `files` unmounts the
`Converter`, discarding its records; no object URL is revoked anywhere
on this path. -/
def clearFiles (a : AppState) : AppState :=
  { a with files := [], batch := [] }

/-- Modelled from the spec: the source blob's base name, "its name with
the extension stripped" — the suffix beginning at the last dot removed,
the whole name when it has no dot.  Used only to compare the spec's
download-naming rule with the code's `split('.')[0]`. -/
def baseNameChars : List Char → List Char
  | [] => []
  | c :: t => if c = '.' ∧ '.' ∉ t then [] else c :: baseNameChars t

/-- Modelled from the spec: string form of `baseNameChars`. -/
def specBaseName (s : String) : String :=
  ⟨baseNameChars s.data⟩

/-!
Cooperative-concurrency model for the convert-all command paths.

`handleConvertAll` is an `async` function: each engine operation is an
`await`, a suspension point at which the single-threaded event loop may
run other queued work — in particular the `keydown` listener, whose
`Shift+C` case invokes `handleConvertAll()` unconditionally (the listener
does not consult `isConverting`; only the button's `disabled` attribute
does).  Each in-flight invocation is modelled as a thread holding its
remaining engine operations; a global log records the operations in the
order the engine receives them, tagged by invocation.
-/

/-- Scheduler state: fresh invocation id, in-flight invocations with
their pending engine operations, and the engine-order log. -/
structure RunState where
  nextId : Nat
  threads : List (Nat × List EngineOp)
  log : List (Nat × EngineOp)
deriving DecidableEq, Repr

/-- One event-loop step.  `batchOps` is the engine-operation sequence a
convert-all invocation performs on the batch captured by the listener's
closure (the same closure serves consecutive keydowns between renders). -/
inductive SchedStep (batchOps : List EngineOp) : RunState → RunState → Prop
  /-- A `Shift+C` keydown: `handleKeyDown` invokes `handleConvertAll`
  with no guard, starting a new invocation regardless of in-flight
  work. -/
  | keydownC (s : RunState) :
      SchedStep batchOps s
        ⟨s.nextId + 1, s.threads ++ [(s.nextId, batchOps)], s.log⟩
  /-- The event loop resumes one suspended invocation at its next
  `await`, performing its next engine operation. -/
  | resume (s : RunState) (pre post : List (Nat × List EngineOp))
      (id : Nat) (op : EngineOp) (rest : List EngineOp)
      (h : s.threads = pre ++ (id, op :: rest) :: post) :
      SchedStep batchOps s
        ⟨s.nextId, pre ++ (id, rest) :: post, s.log ++ [(id, op)]⟩

/-- Reachability under the event-loop semantics from the quiescent
initial state. -/
def SchedReachable (batchOps : List EngineOp) (s : RunState) : Prop :=
  Relation.ReflTransGen (SchedStep batchOps) ⟨0, [], []⟩ s

/-- The engine log is serialized when each invocation's operations form
one contiguous block: no operation of a different invocation is logged
between two operations of the same invocation. -/
def Serialized (log : List (Nat × EngineOp)) : Prop :=
  ∀ i j k : Nat, i < j → j < k → k < log.length →
    (log.getD i (0, .exec [])).1 = (log.getD k (0, .exec [])).1 →
    (log.getD i (0, .exec [])).1 = (log.getD j (0, .exec [])).1

/-! Helper lemmas. -/

/-- The virtual input and output names never collide: one starts with
`input_`, the other with `output_`. -/
theorem inputName_ne_outputName (i j : Nat) (f : InputFile)
    (fmt : TargetFormat) : inputNameOf i f ≠ outputNameOf j fmt := by
  intro h
  have hd := congrArg String.data h
  simp [inputNameOf, outputNameOf, String.data_append] at hd

/-- String-append left cancellation, via the character lists. -/
theorem string_append_left_cancel (a b c : String)
    (h : a ++ b = a ++ c) : b = c := by
  have hd := congrArg String.data h
  simp [String.data_append] at hd
  exact String.ext hd

/-- Distinct target formats have distinct extension strings. -/
theorem targetFormat_str_injective (f1 f2 : TargetFormat)
    (h : f1 ≠ f2) : f1.str ≠ f2.str := by
  cases f1 <;> cases f2 <;> simp_all [TargetFormat.str]

/-- When the display name holds at most one dot, the code's
`split('.')[0]` agrees with the spec's base name (extension stripped). -/
theorem takeWhile_eq_baseNameChars (l : List Char)
    (h : l.count '.' ≤ 1) :
    (l.takeWhile fun c => c ≠ '.') = baseNameChars l := by
  induction l with
  | nil => rfl
  | cons c t ih =>
    by_cases hc : c = '.'
    · subst hc
      have ht : '.' ∉ t := by
        intro hm
        have hpos : 0 < t.count '.' := List.count_pos_iff.mpr hm
        simp [List.count_cons] at h
        omega
      simp [List.takeWhile_cons, baseNameChars, ht]
    · have h' : t.count '.' ≤ 1 := by
        simp [List.count_cons, hc] at h ⊢
        omega
      simp [List.takeWhile_cons, baseNameChars, hc]
      simpa using ih h'

/-! Claim C1. -/

/-- C1, counterexample: for the single done record named
`photo.HEIC.jpg` converted with target format PNG, `downloadAll`
delivers the output under `photo.png` — the segment before the first
dot — not under `photo.HEIC.png` as the claim states. -/
theorem c1_counterexample :
    downloadAll [⟨⟨"photo.HEIC.jpg", 5⟩, .done, some 0, none⟩] .png
        = [("photo.png", 0)]
      ∧ ("photo.png" : String) ≠ "photo.HEIC.png" := by
  exact ⟨rfl, by decide⟩

/-- C1, amended: for every done record with an output URL, `downloadAll`
delivers the output under the segment of the display name before its
FIRST dot followed by the current target format's extension; this agrees
with the spec's base name (extension stripped) exactly when the display
name holds at most one dot, so `photo.HEIC.jpg` downloads as
`photo.png`. -/
theorem c1_amended (s : FileState) (url : Nat) (fmt : TargetFormat)
    (hst : s.status = .done) (hurl : s.outputUrl = some url) :
    downloadAll [s] fmt
        = [(firstDotSegment s.file.name ++ "." ++ fmt.str, url)]
      ∧ (s.file.name.data.count '.' ≤ 1 →
          firstDotSegment s.file.name = specBaseName s.file.name) := by
  constructor
  · simp [downloadAll, downloadName, hst, hurl]
  · intro h
    show String.mk _ = String.mk _
    exact congrArg String.mk (takeWhile_eq_baseNameChars _ h)

/-- Witness for `c1_amended` at a concrete done record. -/
theorem c1_amended_witness :
    downloadAll [⟨⟨"a.jpg", 1⟩, .done, some 0, none⟩] TargetFormat.png
        = [(firstDotSegment "a.jpg" ++ "." ++ TargetFormat.png.str, 0)]
      ∧ (("a.jpg" : String).data.count '.' ≤ 1 →
          firstDotSegment "a.jpg" = specBaseName "a.jpg") :=
  c1_amended ⟨⟨"a.jpg", 1⟩, .done, some 0, none⟩ 0 TargetFormat.png rfl rfl

/-! Claim C9. -/

/-- C9: in the execution where the engine write, exec and read all
succeed but the deletion of the virtual output file fails, the record —
already marked done with its output URL set — is overwritten to failed
with the diagnostic "Conversion failed" while its output URL remains
set. -/
theorem c9_output_delete_failure_clobbers_done :
    (convertFile .png ⟨true, true, true, false, true⟩
        ⟨⟨"a.jpg", 10⟩, .idle, none, none⟩ 0 [] 0).state
      = ⟨⟨"a.jpg", 10⟩, .error, some 0, some "Conversion failed"⟩ := by
  decide

/-! Claim C2. -/

/-- C2, counterexample: in the attempt where write, exec and read
succeed but the output-file deletion fails, the attempt settles (the
record reaches `failed`) with the virtual output file still present in
the engine filesystem — a leftover entry attributable to the attempt. -/
theorem c2_counterexample :
    (convertFile .png ⟨true, true, true, false, true⟩
        ⟨⟨"a.jpg", 10⟩, .idle, none, none⟩ 0 [] 0).vfs
      = ["output_0.png"]
      ∧ (convertFile .png ⟨true, true, true, false, true⟩
          ⟨⟨"a.jpg", 10⟩, .idle, none, none⟩ 0 [] 0).state.status
        = .error := by
  exact ⟨rfl, by decide⟩

/-- C2, amended: against an engine filesystem empty at the start of the
attempt, the virtual input name is absent after the attempt whenever its
unconditional cleanup deletion succeeds (its failures being swallowed),
and a fully successful attempt leaves the engine filesystem empty; but a
failure of the output-file deletion — which runs only on the success
path — can leave the virtual output behind. -/
theorem c2_amended (fmt : TargetFormat) (o : EngineOutcome)
    (f : FileState) (i : Nat) (ctr : Nat) :
    (o.deleteInOk = true →
        inputNameOf i f.file ∉ (convertFile fmt o f i [] ctr).vfs)
      ∧ (o = .allOk → (convertFile fmt o f i [] ctr).vfs = []) := by
  have hne : inputNameOf i f.file ≠ outputNameOf i fmt :=
    inputName_ne_outputName i i f.file fmt
  obtain ⟨w, e, r, d1, d2⟩ := o
  cases w <;> cases e <;> cases r <;> cases d1 <;> cases d2 <;>
    simp_all [convertFile, convertFileBody, deleteAttempt,
      EngineOutcome.allOk, List.insert, hne, Ne.symm hne]

/-- Witness for `c2_amended` at a concrete fully successful attempt. -/
theorem c2_amended_witness :
    inputNameOf 0 ⟨"a.jpg", 10⟩
        ∉ (convertFile .png .allOk
            ⟨⟨"a.jpg", 10⟩, .idle, none, none⟩ 0 [] 0).vfs
      ∧ (convertFile .png .allOk
          ⟨⟨"a.jpg", 10⟩, .idle, none, none⟩ 0 [] 0).vfs = [] :=
  ⟨(c2_amended .png .allOk ⟨⟨"a.jpg", 10⟩, .idle, none, none⟩ 0 0).1 rfl,
   (c2_amended .png .allOk ⟨⟨"a.jpg", 10⟩, .idle, none, none⟩ 0 0).2 rfl⟩

/-- The `finally` block does not touch the record: `convertFile` returns
the record state computed by the try/catch body. -/
theorem convertFile_state_eq_body (fmt : TargetFormat) (o : EngineOutcome)
    (f : FileState) (i : Nat) (vfs : List String) (ctr : Nat) :
    (convertFile fmt o f i vfs ctr).state
      = (convertFileBody fmt o f i vfs ctr).state := rfl

/-- A fully successful attempt marks the record done with the freshly
allocated output URL and no diagnostic, whatever the starting record. -/
theorem convertFile_allOk_state (fmt : TargetFormat) (f : FileState)
    (i : Nat) (vfs : List String) (ctr : Nat) :
    (convertFile fmt .allOk f i vfs ctr).state
      = ⟨f.file, .done, some ctr, none⟩ := by
  simp [convertFile, convertFileBody, EngineOutcome.allOk, deleteAttempt,
    List.mem_insert_self]

/-- Every attempt settles: the record ends either failed while
converting (keeping its prior output URL), or done with the fresh URL,
or failed after the done update with the fresh URL retained. -/
theorem convertFile_state_cases (fmt : TargetFormat) (o : EngineOutcome)
    (f : FileState) (i : Nat) (vfs : List String) (ctr : Nat) :
    (convertFile fmt o f i vfs ctr).state
        = ⟨f.file, .error, f.outputUrl, some "Conversion failed"⟩
      ∨ (convertFile fmt o f i vfs ctr).state = ⟨f.file, .done, some ctr, none⟩
      ∨ (convertFile fmt o f i vfs ctr).state
          = ⟨f.file, .error, some ctr, some "Conversion failed"⟩ := by
  obtain ⟨w, e, r, d1, d2⟩ := o
  cases w <;> cases e <;> cases r <;> cases d1 <;>
    simp [convertFile, convertFileBody, markFailed, deleteAttempt,
      List.mem_insert_self]

/-! Claim C10. -/

/-- C10: the download filename's extension comes from the target format
current at download time, not the format the record was converted with:
after a successful conversion under `f1`, both `downloadAll` and the
per-record link deliver the same unchanged output URL under a name
ending in `f2`'s extension for any later-selected `f2`, and the two
names differ whenever the formats do. -/
theorem c10_download_uses_format_at_download_time (f : FileState)
    (i ctr : Nat) (vfs : List String) (f1 f2 : TargetFormat)
    (hne : f1 ≠ f2) :
    (convertFile f1 .allOk f i vfs ctr).state.status = .done
      ∧ downloadAll [(convertFile f1 .allOk f i vfs ctr).state] f2
          = [(firstDotSegment f.file.name ++ "." ++ f2.str, ctr)]
      ∧ downloadAll [(convertFile f1 .allOk f i vfs ctr).state] f1
          = [(firstDotSegment f.file.name ++ "." ++ f1.str, ctr)]
      ∧ recordLinkName (convertFile f1 .allOk f i vfs ctr).state f2
          = firstDotSegment f.file.name ++ "." ++ f2.str
      ∧ downloadName (convertFile f1 .allOk f i vfs ctr).state f2
          ≠ downloadName (convertFile f1 .allOk f i vfs ctr).state f1 := by
  rw [convertFile_allOk_state]
  refine ⟨rfl, ?_, ?_, rfl, ?_⟩
  · simp [downloadAll, downloadName]
  · simp [downloadAll, downloadName]
  · intro h
    have h2 : f2.str = f1.str :=
      string_append_left_cancel (firstDotSegment f.file.name ++ ".") _ _ h
    exact targetFormat_str_injective f2 f1 (Ne.symm hne) h2

/-- Witness for `c10_download_uses_format_at_download_time`: a record
converted to PNG, downloaded after switching the selector to WEBP. -/
theorem c10_witness :
    (convertFile .png .allOk ⟨⟨"a.jpg", 1⟩, .idle, none, none⟩ 0 [] 0).state.status
        = .done
      ∧ downloadAll
            [(convertFile .png .allOk ⟨⟨"a.jpg", 1⟩, .idle, none, none⟩ 0 [] 0).state]
            .webp
          = [(firstDotSegment "a.jpg" ++ "." ++ TargetFormat.webp.str, 0)]
      ∧ downloadAll
            [(convertFile .png .allOk ⟨⟨"a.jpg", 1⟩, .idle, none, none⟩ 0 [] 0).state]
            .png
          = [(firstDotSegment "a.jpg" ++ "." ++ TargetFormat.png.str, 0)]
      ∧ recordLinkName
            (convertFile .png .allOk ⟨⟨"a.jpg", 1⟩, .idle, none, none⟩ 0 [] 0).state
            .webp
          = firstDotSegment "a.jpg" ++ "." ++ TargetFormat.webp.str
      ∧ downloadName
            (convertFile .png .allOk ⟨⟨"a.jpg", 1⟩, .idle, none, none⟩ 0 [] 0).state
            .webp
          ≠ downloadName
              (convertFile .png .allOk ⟨⟨"a.jpg", 1⟩, .idle, none, none⟩ 0 [] 0).state
              .png :=
  c10_download_uses_format_at_download_time
    ⟨⟨"a.jpg", 1⟩, .idle, none, none⟩ 0 0 [] .png .webp (by decide)

/-! Claim C4. -/

/-- After the loop of `handleConvertAll`, every record is done or
failed. -/
theorem convertAllLoop_all_settled (fmt : TargetFormat)
    (oracles : Nat → EngineOutcome) (l : List FileState) :
    ∀ (i : Nat) (vfs : List String) (ctr : Nat),
      ((convertAllLoop fmt oracles i l vfs ctr).states.all fun s =>
          s.status == FileStatus.done || s.status == FileStatus.error) = true := by
  induction l with
  | nil => intro i vfs ctr; rfl
  | cons f rest ih =>
    intro i vfs ctr
    by_cases hf : f.status = .done
    · simp [convertAllLoop, hf, ih]
    · rcases convertFile_state_cases fmt (oracles i) f i vfs ctr with h | h | h <;>
        simp [convertAllLoop, hf, h, ih]

/-- C4: after `handleConvertAll` completes, every record of the batch
has status done or failed — none remain idle or converting — and
`isConverting` is false on completion whether or not records failed. -/
theorem c4_convertAll_settles_batch (oracles : Nat → EngineOutcome)
    (b : BatchState) :
    ((handleConvertAll oracles b).1.fileStates.all fun s =>
        s.status == FileStatus.done || s.status == FileStatus.error) = true
      ∧ (handleConvertAll oracles b).1.isConverting = false := by
  exact ⟨convertAllLoop_all_settled b.targetFormat oracles b.fileStates 0 b.vfs b.urlCtr,
    rfl⟩

/-! Claim C5. -/

/-- A failure at the write, exec or read step settles the record as
failed with the generic diagnostic. -/
theorem convertFile_fail_state (fmt : TargetFormat) (o : EngineOutcome)
    (f : FileState) (i : Nat) (vfs : List String) (ctr : Nat)
    (hfail : o.writeOk = false ∨ o.execOk = false ∨ o.readOk = false) :
    (convertFile fmt o f i vfs ctr).state.status = .error
      ∧ (convertFile fmt o f i vfs ctr).state.error
          = some "Conversion failed" := by
  obtain ⟨w, e, r, d1, d2⟩ := o
  cases w <;> cases e <;> cases r <;> cases d1 <;>
    simp_all [convertFile, convertFileBody, markFailed, deleteAttempt,
      List.mem_insert_self]

/-- C5: a failure at the byte transfer, at engine execution, or at
output retrieval marks the record failed with the generic diagnostic
"Conversion failed" (the attempt itself returning normally, so nothing
propagates beyond the record), and the batch loop still processes the
remaining records after the failing one, exactly as it would process
them standalone from the threaded engine state. -/
theorem c5_failure_contained (fmt : TargetFormat)
    (oracles : Nat → EngineOutcome) (f : FileState) (rest : List FileState)
    (i : Nat) (vfs : List String) (ctr : Nat)
    (hf : f.status ≠ .done)
    (hfail : (oracles i).writeOk = false ∨ (oracles i).execOk = false
        ∨ (oracles i).readOk = false) :
    (convertFile fmt (oracles i) f i vfs ctr).state.status = .error
      ∧ (convertFile fmt (oracles i) f i vfs ctr).state.error
          = some "Conversion failed"
      ∧ (convertAllLoop fmt oracles i (f :: rest) vfs ctr).states
          = (convertFile fmt (oracles i) f i vfs ctr).state
            :: (convertAllLoop fmt oracles (i + 1) rest
                  (convertFile fmt (oracles i) f i vfs ctr).vfs
                  (convertFile fmt (oracles i) f i vfs ctr).urlCtr).states := by
  exact ⟨(convertFile_fail_state fmt (oracles i) f i vfs ctr hfail).1,
    (convertFile_fail_state fmt (oracles i) f i vfs ctr hfail).2,
    by simp [convertAllLoop, hf]⟩

/-- Witness for `c5_failure_contained`: an exec failure on the sole
record of a batch. -/
theorem c5_witness :
    (convertFile .png ⟨true, false, true, true, true⟩
        ⟨⟨"a.jpg", 1⟩, .idle, none, none⟩ 0 [] 0).state.status = .error
      ∧ (convertFile .png ⟨true, false, true, true, true⟩
          ⟨⟨"a.jpg", 1⟩, .idle, none, none⟩ 0 [] 0).state.error
          = some "Conversion failed"
      ∧ (convertAllLoop .png (fun _ => ⟨true, false, true, true, true⟩) 0
            [⟨⟨"a.jpg", 1⟩, .idle, none, none⟩] [] 0).states
          = (convertFile .png ⟨true, false, true, true, true⟩
              ⟨⟨"a.jpg", 1⟩, .idle, none, none⟩ 0 [] 0).state
            :: (convertAllLoop .png (fun _ => ⟨true, false, true, true, true⟩) 1 []
                  (convertFile .png ⟨true, false, true, true, true⟩
                    ⟨⟨"a.jpg", 1⟩, .idle, none, none⟩ 0 [] 0).vfs
                  (convertFile .png ⟨true, false, true, true, true⟩
                    ⟨⟨"a.jpg", 1⟩, .idle, none, none⟩ 0 [] 0).urlCtr).states :=
  c5_failure_contained .png (fun _ => ⟨true, false, true, true, true⟩)
    ⟨⟨"a.jpg", 1⟩, .idle, none, none⟩ [] 0 [] 0 (by decide) (Or.inr (Or.inl rfl))

/-! Claim C6. -/

/-- C6, counterexample: when the post-read deletion of the virtual
output fails, the settled record has its output URL set while its
status is failed — refuting "output is set if and only if status is
done" (the same run also exhibits a done → failed transition outside
the claimed transition relation). -/
theorem c6_counterexample :
    (convertFile .png ⟨true, true, true, false, true⟩
        ⟨⟨"a.jpg", 10⟩, .idle, none, none⟩ 0 [] 0).state.status ≠ .done
      ∧ (convertFile .png ⟨true, true, true, false, true⟩
          ⟨⟨"a.jpg", 10⟩, .idle, none, none⟩ 0 [] 0).state.outputUrl
        = some 0 := by
  decide

/-- C6, amended: every attempt settles in done or failed;
`failureReason` is set (to "Conversion failed") if and only if the
status is failed; done implies the output URL is set; and "output set
iff done" holds provided the record carried no stale output URL into the
attempt and the post-read output deletion succeeds — when that deletion
fails the record instead moves done → failed retaining its output URL,
the one transition outside `idle → converting → {done | failed}` plus
retry `failed → converting`. -/
theorem c6_amended (fmt : TargetFormat) (o : EngineOutcome) (f : FileState)
    (i : Nat) (vfs : List String) (ctr : Nat) :
    ((convertFile fmt o f i vfs ctr).state.status = .done
        ∨ (convertFile fmt o f i vfs ctr).state.status = .error)
      ∧ ((convertFile fmt o f i vfs ctr).state.error = some "Conversion failed"
          ↔ (convertFile fmt o f i vfs ctr).state.status = .error)
      ∧ ((convertFile fmt o f i vfs ctr).state.status = .done
          → (convertFile fmt o f i vfs ctr).state.outputUrl = some ctr)
      ∧ (f.outputUrl = none → o.deleteOutOk = true →
          ((convertFile fmt o f i vfs ctr).state.outputUrl = some ctr
            ↔ (convertFile fmt o f i vfs ctr).state.status = .done)) := by
  obtain ⟨w, e, r, d1, d2⟩ := o
  cases w <;> cases e <;> cases r <;> cases d1 <;>
    simp_all [convertFile, convertFileBody, markFailed, deleteAttempt,
      List.mem_insert_self]

/-- Witness for `c6_amended` at a fully successful attempt on a fresh
idle record. -/
theorem c6_amended_witness :
    ((convertFile .png .allOk ⟨⟨"a.jpg", 1⟩, .idle, none, none⟩ 0 [] 0).state.outputUrl
        = some 0
      ↔ (convertFile .png .allOk ⟨⟨"a.jpg", 1⟩, .idle, none, none⟩ 0 [] 0).state.status
        = .done) :=
  (c6_amended .png .allOk ⟨⟨"a.jpg", 1⟩, .idle, none, none⟩ 0 [] 0).2.2.2 rfl rfl

/-! Claim C7. -/

/-- A pass over records that are all done performs no engine operation
and changes nothing. -/
theorem convertAllLoop_all_done (fmt : TargetFormat)
    (oracles : Nat → EngineOutcome) (l : List FileState) :
    ∀ (i : Nat) (vfs : List String) (ctr : Nat),
      (∀ s ∈ l, s.status = .done) →
        convertAllLoop fmt oracles i l vfs ctr = ⟨l, vfs, ctr, []⟩ := by
  induction l with
  | nil => intro i vfs ctr _; rfl
  | cons f rest ih =>
    intro i vfs ctr h
    have hf : f.status = .done := h f (List.mem_cons_self f rest)
    have hr := ih (i + 1) vfs ctr fun s hs => h s (List.mem_cons_of_mem f hs)
    simp [convertAllLoop, hf, hr]

/-- Under a fully successful engine, a batch pass leaves every record
done. -/
theorem convertAllLoop_allOk_done (fmt : TargetFormat)
    (oracles : Nat → EngineOutcome) (hok : ∀ j, oracles j = .allOk)
    (l : List FileState) :
    ∀ (i : Nat) (vfs : List String) (ctr : Nat),
      ∀ s ∈ (convertAllLoop fmt oracles i l vfs ctr).states, s.status = .done := by
  induction l with
  | nil => intro i vfs ctr s hs; simp [convertAllLoop] at hs
  | cons f rest ih =>
    intro i vfs ctr s hs
    by_cases hf : f.status = .done
    · simp only [convertAllLoop, if_pos hf, List.mem_cons] at hs
      rcases hs with rfl | hs
      · exact hf
      · exact ih (i + 1) vfs ctr s hs
    · simp only [convertAllLoop, if_neg hf, List.mem_cons] at hs
      rcases hs with rfl | hs
      · rw [hok i, convertFile_allOk_state]
      · exact ih (i + 1) _ _ s hs

/-- C7: with a fully successful engine, invoking `handleConvertAll`
twice in succession performs zero engine operations on the second
invocation and leaves the records unchanged — every done record is
skipped by a batch pass — while a leading failed record is re-converted
rather than skipped by the first pass. -/
theorem c7_idempotent_over_done (oracles : Nat → EngineOutcome)
    (b : BatchState) (hok : ∀ j, oracles j = .allOk) :
    (handleConvertAll oracles (handleConvertAll oracles b).1).2 = []
      ∧ (handleConvertAll oracles (handleConvertAll oracles b).1).1.fileStates
          = (handleConvertAll oracles b).1.fileStates
      ∧ (∀ g rest, b.fileStates = g :: rest → g.status = .error →
          (handleConvertAll oracles b).1.fileStates.head?
            = some (convertFile b.targetFormat (oracles 0) g 0 b.vfs b.urlCtr).state) := by
  have hdone : ∀ s ∈ (handleConvertAll oracles b).1.fileStates, s.status = .done :=
    convertAllLoop_allOk_done b.targetFormat oracles hok b.fileStates 0 b.vfs b.urlCtr
  have h2 := convertAllLoop_all_done b.targetFormat oracles
    (handleConvertAll oracles b).1.fileStates 0 (handleConvertAll oracles b).1.vfs
    (handleConvertAll oracles b).1.urlCtr hdone
  refine ⟨?_, ?_, ?_⟩
  · show (convertAllLoop b.targetFormat oracles 0
        (handleConvertAll oracles b).1.fileStates (handleConvertAll oracles b).1.vfs
        (handleConvertAll oracles b).1.urlCtr).trace = []
    rw [h2]
  · show (convertAllLoop b.targetFormat oracles 0
        (handleConvertAll oracles b).1.fileStates (handleConvertAll oracles b).1.vfs
        (handleConvertAll oracles b).1.urlCtr).states
      = (handleConvertAll oracles b).1.fileStates
    rw [h2]
  · intro g rest hb hg
    show (convertAllLoop b.targetFormat oracles 0 b.fileStates b.vfs b.urlCtr).states.head?
      = some (convertFile b.targetFormat (oracles 0) g 0 b.vfs b.urlCtr).state
    rw [hb]
    have hg' : g.status ≠ .done := by rw [hg]; simp
    simp [convertAllLoop, hg']

/-- Witness for `c7_idempotent_over_done`: a one-record batch whose
record previously failed; it is retried by the first pass, and the
second pass is a no-op. -/
theorem c7_witness :
    (handleConvertAll (fun _ => .allOk)
        (handleConvertAll (fun _ => .allOk)
          ⟨[⟨⟨"a.jpg", 1⟩, .error, none, some "Conversion failed"⟩],
            .png, false, [], 0⟩).1).2 = []
      ∧ (handleConvertAll (fun _ => .allOk)
          ⟨[⟨⟨"a.jpg", 1⟩, .error, none, some "Conversion failed"⟩],
            .png, false, [], 0⟩).1.fileStates.head?
        = some (convertFile .png .allOk
            ⟨⟨"a.jpg", 1⟩, .error, none, some "Conversion failed"⟩ 0 [] 0).state := by
  have h := c7_idempotent_over_done (fun _ => .allOk)
    ⟨[⟨⟨"a.jpg", 1⟩, .error, none, some "Conversion failed"⟩], .png, false, [], 0⟩
    (fun _ => rfl)
  exact ⟨h.1, h.2.2 ⟨⟨"a.jpg", 1⟩, .error, none, some "Conversion failed"⟩ [] rfl rfl⟩

/-! Claim C8. -/

/-- C8, counterexample: after `clearFiles` on an app state holding one
done record whose output URL 0 is allocated, the file list and batch are
emptied, yet URL 0 is still allocated — the clear command does not
release the output payloads (no `revokeObjectURL` is issued on this
path). -/
theorem c8_counterexample :
    (clearFiles ⟨[⟨"a.jpg", 1⟩], [⟨⟨"a.jpg", 1⟩, .done, some 0, none⟩], [0]⟩).files
        = []
      ∧ (clearFiles ⟨[⟨"a.jpg", 1⟩], [⟨⟨"a.jpg", 1⟩, .done, some 0, none⟩], [0]⟩).batch
        = []
      ∧ 0 ∈ (clearFiles
          ⟨[⟨"a.jpg", 1⟩], [⟨⟨"a.jpg", 1⟩, .done, some 0, none⟩], [0]⟩).allocatedUrls := by
  exact ⟨rfl, rfl, by simp [clearFiles]⟩

/-- C8, amended: the clear command resets the file list and the batch to
empty, returning the application to the input-acceptance state, but
leaves the allocated object URLs exactly as they were: the output
payloads are not released. -/
theorem c8_amended (a : AppState) :
    (clearFiles a).files = [] ∧ (clearFiles a).batch = []
      ∧ (clearFiles a).allocatedUrls = a.allocatedUrls :=
  ⟨rfl, rfl, rfl⟩

/-! Claim C3. -/

/-- C3: a state with an interleaved engine log is reachable.  From the
quiescent state, two `Shift+C` keydowns start two convert-all
invocations over a one-record batch (`handleKeyDown` calls
`handleConvertAll` without consulting `isConverting`), and the event
loop may then run invocation 0's write, invocation 1's write, and
invocation 0's exec — so the two conversions' engine operations
interleave, and more than one conversion is in flight against the
shared engine at once. -/
theorem c3_interleaving_reachable :
    ∃ s : RunState,
      SchedReachable
          (handleConvertAll (fun _ => .allOk)
            ⟨[⟨⟨"a.jpg", 1⟩, .idle, none, none⟩], .png, false, [], 0⟩).2 s
        ∧ ¬ Serialized s.log := by
  have hops : (handleConvertAll (fun _ => .allOk)
      ⟨[⟨⟨"a.jpg", 1⟩, .idle, none, none⟩], .png, false, [], 0⟩).2
      = [EngineOp.write "input_0_a.jpg",
         EngineOp.exec ["-i", "input_0_a.jpg", "output_0.png"],
         EngineOp.read "output_0.png",
         EngineOp.delete "output_0.png",
         EngineOp.delete "input_0_a.jpg"] := rfl
  rw [hops]
  refine ⟨⟨2,
      [(0, [EngineOp.read "output_0.png",
            EngineOp.delete "output_0.png",
            EngineOp.delete "input_0_a.jpg"]),
       (1, [EngineOp.exec ["-i", "input_0_a.jpg", "output_0.png"],
            EngineOp.read "output_0.png",
            EngineOp.delete "output_0.png",
            EngineOp.delete "input_0_a.jpg"])],
      [(0, EngineOp.write "input_0_a.jpg"),
       (1, EngineOp.write "input_0_a.jpg"),
       (0, EngineOp.exec ["-i", "input_0_a.jpg", "output_0.png"])]⟩,
    ?_, ?_⟩
  · refine Relation.ReflTransGen.head (SchedStep.keydownC _) ?_
    refine Relation.ReflTransGen.head (SchedStep.keydownC _) ?_
    refine Relation.ReflTransGen.head
      (SchedStep.resume _ []
        [(1, [EngineOp.write "input_0_a.jpg",
              EngineOp.exec ["-i", "input_0_a.jpg", "output_0.png"],
              EngineOp.read "output_0.png",
              EngineOp.delete "output_0.png",
              EngineOp.delete "input_0_a.jpg"])]
        0 (EngineOp.write "input_0_a.jpg")
        [EngineOp.exec ["-i", "input_0_a.jpg", "output_0.png"],
         EngineOp.read "output_0.png",
         EngineOp.delete "output_0.png",
         EngineOp.delete "input_0_a.jpg"] rfl) ?_
    refine Relation.ReflTransGen.head
      (SchedStep.resume _
        [(0, [EngineOp.exec ["-i", "input_0_a.jpg", "output_0.png"],
              EngineOp.read "output_0.png",
              EngineOp.delete "output_0.png",
              EngineOp.delete "input_0_a.jpg"])]
        []
        1 (EngineOp.write "input_0_a.jpg")
        [EngineOp.exec ["-i", "input_0_a.jpg", "output_0.png"],
         EngineOp.read "output_0.png",
         EngineOp.delete "output_0.png",
         EngineOp.delete "input_0_a.jpg"] rfl) ?_
    refine Relation.ReflTransGen.head
      (SchedStep.resume _ []
        [(1, [EngineOp.exec ["-i", "input_0_a.jpg", "output_0.png"],
              EngineOp.read "output_0.png",
              EngineOp.delete "output_0.png",
              EngineOp.delete "input_0_a.jpg"])]
        0 (EngineOp.exec ["-i", "input_0_a.jpg", "output_0.png"])
        [EngineOp.read "output_0.png",
         EngineOp.delete "output_0.png",
         EngineOp.delete "input_0_a.jpg"] rfl) ?_
    exact Relation.ReflTransGen.refl
  · intro hS
    exact absurd (hS 0 1 2 (by decide) (by decide) (by decide) (by decide))
      (by decide)

/-- Witness for `c4_convertAll_settles_batch` on a concrete two-record
batch with a failing engine for the second record. -/
theorem c4_witness :
    ((handleConvertAll (fun j => if j = 0 then .allOk else ⟨true, false, true, true, true⟩)
        ⟨[⟨⟨"a.jpg", 1⟩, .idle, none, none⟩, ⟨⟨"b png.bmp", 2⟩, .idle, none, none⟩],
          .png, false, [], 0⟩).1.fileStates.all fun s =>
        s.status == FileStatus.done || s.status == FileStatus.error) = true
      ∧ (handleConvertAll (fun j => if j = 0 then .allOk else ⟨true, false, true, true, true⟩)
          ⟨[⟨⟨"a.jpg", 1⟩, .idle, none, none⟩, ⟨⟨"b png.bmp", 2⟩, .idle, none, none⟩],
            .png, false, [], 0⟩).1.isConverting = false :=
  c4_convertAll_settles_batch
    (fun j => if j = 0 then .allOk else ⟨true, false, true, true, true⟩)
    ⟨[⟨⟨"a.jpg", 1⟩, .idle, none, none⟩, ⟨⟨"b png.bmp", 2⟩, .idle, none, none⟩],
      .png, false, [], 0⟩

/-- Witness for `c8_amended` on a concrete post-conversion app state. -/
theorem c8_amended_witness :
    (clearFiles ⟨[⟨"b.bmp", 2⟩], [⟨⟨"b.bmp", 2⟩, .done, some 1, none⟩], [0, 1]⟩).files
        = []
      ∧ (clearFiles ⟨[⟨"b.bmp", 2⟩], [⟨⟨"b.bmp", 2⟩, .done, some 1, none⟩], [0, 1]⟩).batch
        = []
      ∧ (clearFiles
            ⟨[⟨"b.bmp", 2⟩], [⟨⟨"b.bmp", 2⟩, .done, some 1, none⟩], [0, 1]⟩).allocatedUrls
        = [0, 1] :=
  c8_amended ⟨[⟨"b.bmp", 2⟩], [⟨⟨"b.bmp", 2⟩, .done, some 1, none⟩], [0, 1]⟩
